import Mathlib

/-!
Verification of the gamma-exposure engine of this repository.

The definitions below are a shallow embedding of the Python source file
gamma_exposure.py: machine floats are modelled by the real numbers for the
Black-Scholes pricer and by the rationals for the grid, solver and
aggregation arithmetic; pandas dataframes become lists of rows plus
optional derived columns; in-place dataframe mutation becomes explicit
state passing.
-/

/-- The standard normal density, scipy.stats.norm.pdf. -/
noncomputable def norm_pdf (x : ℝ) : ℝ :=
  Real.exp (-(x ^ 2) / 2) / Real.sqrt (2 * Real.pi)

/-- Embedding of calc_gamma from gamma_exposure.py (lines 14-27): the
Black-Scholes gamma of a European option, returning 0 when the time to
expiry or the implied volatility is zero, the call closed form when the
option type string equals call, and the alternate put closed form
otherwise. -/
noncomputable def calc_gamma (S K vol T r q : ℝ) (option_type : String) : ℝ :=
  if T = 0 ∨ vol = 0 then 0
  else
    let dp := (Real.log (S / K) + (r - q + 0.5 * vol ^ 2) * T) / (vol * Real.sqrt T)
    let dm := dp - vol * Real.sqrt T
    if option_type = "call" then
      Real.exp (-q * T) * norm_pdf dp / (S * vol * Real.sqrt T)
    else
      K * Real.exp (-r * T) * norm_pdf dm / (S * S * vol * Real.sqrt T)

/-- Embedding of calc_gamma_exposure (lines 30-36): notional gamma
exposure of one contract. -/
noncomputable def calc_gamma_exposure (S K vol T r q : ℝ) (option_type : String)
    (open_interest : ℝ) : ℝ :=
  open_interest * 100 * S ^ 2 * 0.01 * calc_gamma S K vol T r q option_type

/-- The spec formula d1. -/
noncomputable def d1_spec (S K vol T r q : ℝ) : ℝ :=
  (Real.log (S / K) + (r - q + 0.5 * vol ^ 2) * T) / (vol * Real.sqrt T)

/-- The spec formula d2 = d1 minus vol times sqrt T. -/
noncomputable def d2_spec (S K vol T r q : ℝ) : ℝ :=
  d1_spec S K vol T r q - vol * Real.sqrt T

/-- The call gamma closed form stated by the spec. -/
noncomputable def gamma_call_spec (S K vol T r q : ℝ) : ℝ :=
  Real.exp (-q * T) * norm_pdf (d1_spec S K vol T r q) / (S * vol * Real.sqrt T)

/-- The put-specific gamma closed form stated by the spec. -/
noncomputable def gamma_put_spec (S K vol T r q : ℝ) : ℝ :=
  K * Real.exp (-r * T) * norm_pdf (d2_spec S K vol T r q) / (S ^ 2 * vol * Real.sqrt T)

lemma norm_pdf_pos (x : ℝ) : 0 < norm_pdf x := by
  unfold norm_pdf
  positivity

lemma calc_gamma_T_zero (S K vol r q : ℝ) (ot : String) :
    calc_gamma S K vol 0 r q ot = 0 := by
  simp [calc_gamma]

lemma calc_gamma_vol_zero (S K T r q : ℝ) (ot : String) :
    calc_gamma S K 0 T r q ot = 0 := by
  simp [calc_gamma]

lemma calc_gamma_pos (S K vol T r q : ℝ) (ot : String)
    (hS : 0 < S) (hK : 0 < K) (hvol : 0 < vol) (hT : 0 < T) :
    0 < calc_gamma S K vol T r q ot := by
  have hsq : 0 < Real.sqrt T := Real.sqrt_pos.mpr hT
  unfold calc_gamma
  rw [if_neg (by push_neg; exact ⟨ne_of_gt hT, ne_of_gt hvol⟩)]
  dsimp only
  split
  · exact div_pos (mul_pos (Real.exp_pos _) (norm_pdf_pos _))
      (mul_pos (mul_pos hS hvol) hsq)
  · exact div_pos (mul_pos (mul_pos hK (Real.exp_pos _)) (norm_pdf_pos _))
      (mul_pos (mul_pos (mul_pos hS hS) hvol) hsq)

/-- C3: for positive time to expiry and positive implied volatility the
pricer returns the call closed form e^(-qT) phi(d1) / (S vol sqrt T) for
option type call, and the alternate put-specific closed form
K e^(-rT) phi(d2) / (S^2 vol sqrt T) for option type put; the put branch
evaluates its own formula rather than the call value. -/
theorem calc_gamma_formulas (S K vol T r q : ℝ) (hT : 0 < T) (hvol : 0 < vol) :
    calc_gamma S K vol T r q "call" = gamma_call_spec S K vol T r q ∧
    calc_gamma S K vol T r q "put" = gamma_put_spec S K vol T r q := by
  have hne : ¬(T = 0 ∨ vol = 0) := by push_neg; exact ⟨ne_of_gt hT, ne_of_gt hvol⟩
  constructor
  · unfold calc_gamma gamma_call_spec d1_spec
    rw [if_neg hne]
    simp
  · unfold calc_gamma gamma_put_spec d2_spec d1_spec
    rw [if_neg hne, if_neg (by simp), pow_two S]

/-- Closed witness for calc_gamma_formulas at concrete inputs. -/
theorem calc_gamma_formulas_witness :
    calc_gamma 100 90 (1/5) 1 0 0 "call" = gamma_call_spec 100 90 (1/5) 1 0 0 ∧
    calc_gamma 100 90 (1/5) 1 0 0 "put" = gamma_put_spec 100 90 (1/5) 1 0 0 :=
  calc_gamma_formulas 100 90 (1/5) 1 0 0 (by norm_num) (by norm_num)

/-- C4: for positive spot and strike the pricer returns 0 when the time
to expiry or the implied volatility is zero, and a non-negative value
when both are positive; no call or put sign is applied inside the
pricer. -/
theorem calc_gamma_sign_policy (S K vol T r q : ℝ) (ot : String)
    (hS : 0 < S) (hK : 0 < K) :
    (T = 0 ∨ vol = 0 → calc_gamma S K vol T r q ot = 0) ∧
    (0 < T → 0 < vol → 0 ≤ calc_gamma S K vol T r q ot) := by
  constructor
  · rintro (rfl | rfl)
    · exact calc_gamma_T_zero S K vol r q ot
    · exact calc_gamma_vol_zero S K T r q ot
  · intro hT hvol
    exact le_of_lt (calc_gamma_pos S K vol T r q ot hS hK hvol hT)

/-- Closed witness for calc_gamma_sign_policy at concrete inputs. -/
theorem calc_gamma_sign_policy_witness :
    ((1:ℝ) = 0 ∨ (1/5:ℝ) = 0 → calc_gamma 100 100 (1/5) 1 0 0 "call" = 0) ∧
    ((0:ℝ) < 1 → (0:ℝ) < 1/5 → 0 ≤ calc_gamma 100 100 (1/5) 1 0 0 "call") :=
  calc_gamma_sign_policy 100 100 (1/5) 1 0 0 "call" (by norm_num) (by norm_num)

/-- C10: every option type string other than call takes the put-formula
branch of the pricer; there is no exhaustive check of the option type
value and no error for strings outside call and put. -/
theorem calc_gamma_noncall_put_branch (S K vol T r q : ℝ) (ot : String)
    (hot : ot ≠ "call") (hT : T ≠ 0) (hvol : vol ≠ 0) :
    calc_gamma S K vol T r q ot = gamma_put_spec S K vol T r q := by
  unfold calc_gamma gamma_put_spec d2_spec d1_spec
  rw [if_neg (by push_neg; exact ⟨hT, hvol⟩), if_neg hot, pow_two S]

/-- Closed witness for calc_gamma_noncall_put_branch at a malformed
option type string. -/
theorem calc_gamma_noncall_put_branch_witness :
    calc_gamma 100 90 (1/5) 1 0 0 "banana" = gamma_put_spec 100 90 (1/5) 1 0 0 :=
  calc_gamma_noncall_put_branch 100 90 (1/5) 1 0 0 "banana" (by decide)
    (by norm_num) (by norm_num)

/-- A calendar date as seen by the Python code: an absolute day index
(epoch chosen so that day 0 is a Monday, so the weekday is the index mod
7 with Monday = 0 as in datetime.date.weekday) together with the day of
the month. -/
structure PyDate where
  absDay : ℤ
  dayOfMonth : ℕ
deriving DecidableEq

/-- datetime.date.weekday: Monday is 0, Sunday is 6. -/
def weekday (d : PyDate) : ℤ := d.absDay % 7

/-- Embedding of is_third_friday (lines 56-57): Friday whose day of the
month lies in 15..21. -/
def is_third_friday (d : PyDate) : Bool :=
  weekday d = 4 ∧ 15 ≤ d.dayOfMonth ∧ d.dayOfMonth ≤ 21

/-- A day index is a business day when its weekday is Monday..Friday. -/
def is_busday (d : ℤ) : Bool := d % 7 < 5

/-- Model of numpy busday_count with the default Mon-Fri week mask: the
number of business days in the half-open interval from b (included) to e
(excluded), negated when e is earlier than b. -/
def busday_count (b e : ℤ) : ℤ :=
  if b ≤ e then
    ((List.range (e - b).toNat).filter (fun i => is_busday (b + i))).length
  else
    -(((List.range (b - e).toNat).filter (fun i => is_busday (e + i))).length : ℤ)

/-- Embedding of the Days untill Expiry column construction of
calculate_gamma_profile (lines 184-185): clamp contracts with zero
business days to expiry to 1/262 of a year, otherwise use the business
day count over 262. -/
def days_until_expiry (last_trade expiry : ℤ) : ℚ :=
  if busday_count last_trade expiry = 0 then 1/262
  else (busday_count last_trade expiry : ℚ) / 262

lemma busday_count_self (d : ℤ) : busday_count d d = 0 := by
  simp [busday_count]

/-- C7: a contract expiring on the business day of the as-of date gets
time to expiry 1/262 rather than 0 in the profile simulator, and with
positive spot, strike and volatility it then contributes strictly
positive gamma, while the pricer invoked directly with T = 0 returns
exactly 0; every contract with a nonzero business-day count uses that
count over 262. -/
theorem dte_clamp_0dte (asOf expiry : ℤ) (S K vol r q : ℝ) (ot : String)
    (hS : 0 < S) (hK : 0 < K) (hvol : 0 < vol) :
    days_until_expiry asOf asOf = 1/262 ∧
    (busday_count asOf expiry ≠ 0 →
      days_until_expiry asOf expiry = (busday_count asOf expiry : ℚ) / 262) ∧
    0 < calc_gamma S K vol ((1:ℝ)/262) r q ot ∧
    calc_gamma S K vol 0 r q ot = 0 := by
  refine ⟨?_, ?_, ?_, ?_⟩
  · rw [days_until_expiry, if_pos (busday_count_self asOf)]
  · intro h
    rw [days_until_expiry, if_neg h]
  · exact calc_gamma_pos S K vol (1/262) r q ot hS hK hvol (by norm_num)
  · exact calc_gamma_T_zero S K vol r q ot

/-- Closed witness for dte_clamp_0dte: as-of day 0 (a Monday), expiry
day 1, so one business day between them. -/
theorem dte_clamp_0dte_witness :
    days_until_expiry 0 0 = 1/262 ∧
    (busday_count 0 1 ≠ 0 → days_until_expiry 0 1 = (busday_count 0 1 : ℚ) / 262) ∧
    0 < calc_gamma 100 100 (1/5) ((1:ℝ)/262) 0 0 "call" ∧
    calc_gamma 100 100 (1/5) 0 0 0 "call" = 0 :=
  dte_clamp_0dte 0 1 100 100 (1/5) 0 0 "call" (by norm_num) (by norm_num) (by norm_num)

/-- Model of numpy linspace: n evenly spaced points from a to b with both
endpoints included. -/
def linspace (a b : ℚ) (n : ℕ) : List ℚ :=
  (List.range n).map (fun k : ℕ => a + (b - a) * (k : ℚ) / ((n : ℚ) - 1))

/-- Embedding of the spot-level grid of calculate_gamma_profile (lines
178-181): the code always requests 60 points from linspace; no level
count parameter exists in the source. -/
def profile_levels (spot pct_from pct_to : ℚ) : List ℚ :=
  linspace (pct_from * spot) (pct_to * spot) 60

/-- Modelled from the spec: the spec describes a levelCount option
(default 60) controlling curve resolution, absent from the source, whose
grid would have levelCount evenly spaced points over the same range. -/
def profile_levels_spec (spot pct_from pct_to : ℚ) (levelCount : ℕ) : List ℚ :=
  linspace (pct_from * spot) (pct_to * spot) levelCount

lemma linspace_length (a b : ℚ) (n : ℕ) : (linspace a b n).length = n := by
  rw [linspace, List.length_map, List.length_range]

lemma linspace_getD (a b : ℚ) (n k : ℕ) (h : k < n) :
    (linspace a b n).getD k 0 = a + (b - a) * (k : ℚ) / ((n : ℚ) - 1) := by
  rw [linspace, List.getD_eq_getElem?_getD, List.getElem?_map, List.getElem?_range h,
    Option.map_some', Option.getD_some]

lemma profile_levels_getD (spot pct_from pct_to : ℚ) (k : ℕ) (h : k < 60) :
    (profile_levels spot pct_from pct_to).getD k 0
      = pct_from * spot + (pct_to * spot - pct_from * spot) * (k : ℚ) / 59 := by
  rw [profile_levels, linspace_getD _ _ _ _ h]
  norm_num

/-- C6 counterexample: the grid produced by the code always has 60
points, so it cannot match the spec-modelled grid for a requested level
count of 2; levelCount is not a recognized option of the source. -/
theorem profile_levels_fixed_count_cex :
    (profile_levels 100 (4/5) (6/5)).length = 60 ∧
    (profile_levels_spec 100 (4/5) (6/5) 2).length = 2 ∧
    (profile_levels 100 (4/5) (6/5)).length
      ≠ (profile_levels_spec 100 (4/5) (6/5) 2).length := by
  refine ⟨?_, ?_, ?_⟩ <;>
    simp [profile_levels, profile_levels_spec, linspace_length]

/-- C6 amended: for positive spot and pctFrom less than pctTo the curve
grid has exactly 60 points (the count is hardcoded, not configurable),
starts at pctFrom times spot, ends at pctTo times spot, is evenly spaced
with step (pctTo - pctFrom) times spot over 59, and is strictly
ascending. -/
theorem profile_levels_grid (spot pct_from pct_to : ℚ)
    (hspot : 0 < spot) (hlt : pct_from < pct_to) :
    (profile_levels spot pct_from pct_to).length = 60 ∧
    (profile_levels spot pct_from pct_to).getD 0 0 = pct_from * spot ∧
    (profile_levels spot pct_from pct_to).getD 59 0 = pct_to * spot ∧
    (∀ k, k < 59 →
      (profile_levels spot pct_from pct_to).getD (k + 1) 0
        - (profile_levels spot pct_from pct_to).getD k 0
        = (pct_to - pct_from) * spot / 59) ∧
    (∀ i j, i < j → j < 60 →
      (profile_levels spot pct_from pct_to).getD i 0
        < (profile_levels spot pct_from pct_to).getD j 0) := by
  have hD : 0 < pct_to * spot - pct_from * spot :=
    sub_pos.mpr (mul_lt_mul_of_pos_right hlt hspot)
  refine ⟨?_, ?_, ?_, ?_, ?_⟩
  · rw [profile_levels, linspace_length]
  · rw [profile_levels_getD _ _ _ 0 (by norm_num)]
    norm_num
  · rw [profile_levels_getD _ _ _ 59 (by norm_num)]
    ring
  · intro k hk
    rw [profile_levels_getD _ _ _ (k + 1) (by omega),
      profile_levels_getD _ _ _ k (by omega)]
    push_cast
    ring
  · intro i j hij hj
    rw [profile_levels_getD _ _ _ i (by omega), profile_levels_getD _ _ _ j hj]
    have hcast : (i : ℚ) < (j : ℚ) := by exact_mod_cast hij
    have := mul_lt_mul_of_pos_left hcast hD
    have h59 : (0:ℚ) < 59 := by norm_num
    exact add_lt_add_left (div_lt_div_of_pos_right this h59) _

/-- Closed witness for profile_levels_grid at concrete parameters. -/
theorem profile_levels_grid_witness :
    (profile_levels 100 (4/5) (6/5)).length = 60 ∧
    (profile_levels 100 (4/5) (6/5)).getD 0 0 = (4/5) * 100 ∧
    (profile_levels 100 (4/5) (6/5)).getD 1 0 - (profile_levels 100 (4/5) (6/5)).getD 0 0
      = (6/5 - 4/5) * 100 / 59 ∧
    (profile_levels 100 (4/5) (6/5)).getD 0 0 < (profile_levels 100 (4/5) (6/5)).getD 59 0 := by
  have h := profile_levels_grid 100 (4/5) (6/5) (by norm_num) (by norm_num)
  exact ⟨h.1, h.2.1, h.2.2.2.1 0 (by norm_num), h.2.2.2.2 0 59 (by norm_num) (by norm_num)⟩

/-- C8 amended: the engine performs no parameter validation; for every
spot, pctFrom and pctTo, including pctFrom at least pctTo, the level
grid is built unconditionally with 60 points following the linspace
formula, so invalid parameters are silently accepted rather than
rejected. -/
theorem no_param_validation (spot pct_from pct_to : ℚ) :
    (profile_levels spot pct_from pct_to).length = 60 ∧
    ∀ k, k < 60 →
      (profile_levels spot pct_from pct_to).getD k 0
        = pct_from * spot + (pct_to * spot - pct_from * spot) * (k : ℚ) / 59 := by
  refine ⟨?_, ?_⟩
  · rw [profile_levels, linspace_length]
  · intro k hk
    exact profile_levels_getD spot pct_from pct_to k hk

/-- Closed witness for no_param_validation at the invalid parameter pair
pctFrom = 1.2, pctTo = 0.8. -/
theorem no_param_validation_witness :
    (profile_levels 100 (6/5) (4/5)).length = 60 ∧
    (profile_levels 100 (6/5) (4/5)).getD 0 0
      = (6/5) * 100 + ((4/5) * 100 - (6/5) * 100) * ((0:ℕ) : ℚ) / 59 := by
  have h := no_param_validation 100 (6/5) (4/5)
  exact ⟨h.1, h.2 0 (by norm_num)⟩

section Solver

variable {α : Type} [LinearOrderedField α]

/-- Model of numpy sign: -1, 0 or 1. -/
def sign_val (x : α) : ℤ :=
  if x < 0 then -1 else if 0 < x then 1 else 0

/-- Embedding of line 229: the indices where np.diff of np.sign of the
curve is nonzero, that is, the adjacent positions whose signs differ. -/
def zero_cross_idx (g : List α) : List ℕ :=
  (List.range (g.length - 1)).filter
    (fun i => decide (sign_val (g.getD i 0) ≠ sign_val (g.getD (i + 1) 0)))

/-- Embedding of lines 231-236 at one crossing index: the linear
interpolation the code evaluates from the index pair (i, i+1). -/
def interp_at (levels g : List α) (i : ℕ) : α :=
  let neg_gamma := g.getD i 0
  let pos_gamma := g.getD (i + 1) 0
  let neg_strike := levels.getD i 0
  let pos_strike := levels.getD (i + 1) 0
  pos_strike - ((pos_strike - neg_strike) * pos_gamma / (pos_gamma - neg_gamma))

/-- Embedding of lines 228-237: the code interpolates at every detected
crossing and then reads element 0 of the result; on an empty crossing
list that read is an unchecked IndexError, modelled as the error case. -/
def zero_gamma_calc (levels g : List α) : Except String α :=
  match zero_cross_idx g with
  | [] => Except.error "IndexError: index 0 is out of bounds for axis 0 with size 0"
  | i :: _ => Except.ok (interp_at levels g i)

/-- The interpolation formula as worded by the spec: gammaNeg is
whichever side is negative and gammaPos the positive side, regardless of
index order, and zero = levelPos - (levelPos - levelNeg) times gammaPos
over (gammaPos - gammaNeg). -/
def zero_interp_spec (l0 g0 l1 g1 : α) : α :=
  if g0 < 0 then l1 - (l1 - l0) * g1 / (g1 - g0)
  else l0 - (l0 - l1) * g0 / (g0 - g1)

lemma interp_symm (A B c d : α) (h : d - c ≠ 0) :
    B - (B - A) * d / (d - c) = A - (A - B) * c / (c - d) := by
  have h2 : c - d ≠ 0 := by
    rw [← neg_sub d c]
    exact neg_ne_zero.mpr h
  field_simp
  ring

lemma filter_range_head_min (m : ℕ) (p : ℕ → Bool) (i : ℕ) (rest : List ℕ)
    (h : (List.range m).filter p = i :: rest) :
    ∀ j, j < i → p j = false := by
  intro j hj
  by_contra hpj
  have hpj' : p j = true := by
    cases hp : p j with
    | false => exact absurd hp hpj
    | true => rfl
  have hi : i ∈ (List.range m).filter p := by
    rw [h]; exact List.mem_cons_self i rest
  have him : i < m := List.mem_range.mp (List.mem_filter.mp hi).1
  have hjf : j ∈ (List.range m).filter p :=
    List.mem_filter.mpr ⟨List.mem_range.mpr (lt_trans hj him), hpj'⟩
  rw [h] at hjf
  have hpw : (i :: rest).Pairwise (· < ·) := by
    rw [← h]
    exact (List.pairwise_lt_range m).filter p
  rcases List.mem_cons.mp hjf with rfl | hjr
  · exact lt_irrefl j hj
  · exact absurd hj (not_lt.mpr (le_of_lt ((List.pairwise_cons.mp hpw).1 j hjr)))

end Solver

/-- C1: on an all-positive curve the crossing list is empty and the code
faults with an unchecked IndexError instead of returning a distinct
NotFound outcome. -/
theorem zero_gamma_no_crossing_fault :
    zero_gamma_calc [(80:ℚ), 100, 120] [(1:ℚ), 2, 3]
      = Except.error "IndexError: index 0 is out of bounds for axis 0 with size 0" := by
  rfl

/-- C2: whenever the curve has an adjacent sign change whose first
occurrence strictly straddles zero, the solver returns the first,
lowest-spot-level crossing, and its value agrees with the interpolation
formula of the spec with gammaNeg the negative side and gammaPos the
positive side regardless of index order; all earlier adjacent pairs have
equal signs. -/
theorem zero_gamma_first_crossing (levels g : List ℚ) (i : ℕ) (rest : List ℕ)
    (h : zero_cross_idx g = i :: rest)
    (hstrad : (g.getD i 0 < 0 ∧ 0 < g.getD (i + 1) 0)
      ∨ (g.getD (i + 1) 0 < 0 ∧ 0 < g.getD i 0)) :
    zero_gamma_calc levels g
      = Except.ok (zero_interp_spec (levels.getD i 0) (g.getD i 0)
          (levels.getD (i + 1) 0) (g.getD (i + 1) 0)) ∧
    ∀ j, j < i → sign_val (g.getD j 0) = sign_val (g.getD (j + 1) 0) := by
  constructor
  · have hcalc : zero_gamma_calc levels g = Except.ok (interp_at levels g i) := by
      rw [zero_gamma_calc, h]
    rw [hcalc]
    congr 1
    rcases hstrad with ⟨h0, h1⟩ | ⟨h1, h0⟩
    · rw [zero_interp_spec, if_pos h0]
      rfl
    · rw [zero_interp_spec, if_neg (not_lt.mpr (le_of_lt h0))]
      show levels.getD (i + 1) 0
          - ((levels.getD (i + 1) 0 - levels.getD i 0) * g.getD (i + 1) 0
            / (g.getD (i + 1) 0 - g.getD i 0)) = _
      have hne1 : g.getD (i + 1) 0 - g.getD i 0 ≠ 0 :=
        ne_of_lt (sub_neg.mpr (lt_trans h1 h0))
      exact interp_symm (levels.getD i 0) (levels.getD (i + 1) 0)
        (g.getD i 0) (g.getD (i + 1) 0) hne1
  · intro j hj
    have := filter_range_head_min (g.length - 1)
      (fun k => decide (sign_val (g.getD k 0) ≠ sign_val (g.getD (k + 1) 0)))
      i rest h j hj
    simpa using this

/-- Closed witness for zero_gamma_first_crossing: the two-point curve
from the spec, whose zero-gamma level is exactly 104. -/
theorem zero_gamma_first_crossing_witness :
    (zero_gamma_calc [(100:ℚ), 110] [(-2:ℚ), 3]
        = Except.ok (zero_interp_spec ([(100:ℚ), 110].getD 0 0) ([(-2:ℚ), 3].getD 0 0)
            ([(100:ℚ), 110].getD 1 0) ([(-2:ℚ), 3].getD 1 0)) ∧
      (∀ j, j < 0 →
        sign_val ([(-2:ℚ), 3].getD j 0) = sign_val ([(-2:ℚ), 3].getD (j + 1) 0))) ∧
    zero_interp_spec ([(100:ℚ), 110].getD 0 0) ([(-2:ℚ), 3].getD 0 0)
      ([(100:ℚ), 110].getD 1 0) ([(-2:ℚ), 3].getD 1 0) = 104 :=
  ⟨zero_gamma_first_crossing [100, 110] [-2, 3] 0 [] (by decide)
      (Or.inl (by constructor <;> decide)),
    by norm_num [zero_interp_spec]⟩

section AggHelpers

variable {R : Type} {κ : Type} [DecidableEq κ]

lemma list_sum_map_add (l : List R) (f g : R → ℚ) :
    (l.map (fun x => f x + g x)).sum = (l.map f).sum + (l.map g).sum := by
  induction l with
  | nil => simp
  | cons a t ih => simp only [List.map_cons, List.sum_cons, ih]; ring

lemma list_sum_map_div (l : List R) (f : R → ℚ) (c : ℚ) :
    (l.map (fun x => f x / c)).sum = (l.map f).sum / c := by
  induction l with
  | nil => simp
  | cons a t ih => simp only [List.map_cons, List.sum_cons, ih, add_div]

lemma list_sum_ite_not_mem (a : κ) (c : ℚ) :
    ∀ keys : List κ, a ∉ keys →
      (keys.map (fun k => if a = k then c else 0)).sum = 0 := by
  intro keys
  induction keys with
  | nil => intro _; simp
  | cons k t ih =>
    intro ha
    have hak : a ≠ k := fun h => ha (h ▸ List.mem_cons_self k t)
    have hat : a ∉ t := fun h => ha (List.mem_cons_of_mem k h)
    simp only [List.map_cons, List.sum_cons, if_neg hak, ih hat, add_zero]

lemma list_sum_ite_mem (a : κ) (c : ℚ) :
    ∀ keys : List κ, keys.Nodup → a ∈ keys →
      (keys.map (fun k => if a = k then c else 0)).sum = c := by
  intro keys
  induction keys with
  | nil => intro _ ha; cases ha
  | cons k t ih =>
    intro hnd ha
    rcases List.mem_cons.mp ha with rfl | hat
    · have hnt : a ∉ t := (List.nodup_cons.mp hnd).1
      simp [list_sum_ite_not_mem a c t hnt]
    · have hak : a ≠ k := by
        rintro rfl
        exact (List.nodup_cons.mp hnd).1 hat
      simp only [List.map_cons, List.sum_cons, if_neg hak,
        ih (List.nodup_cons.mp hnd).2 hat, zero_add]

lemma groupsum_partition (key : R → κ) (f : R → ℚ) (p : κ → Bool) :
    ∀ (rows : List R) (keys : List κ), keys.Nodup →
      (∀ r ∈ rows, p (key r) = true → key r ∈ keys) →
      (∀ k ∈ keys, p k = true) →
      (keys.map (fun k => ((rows.filter (fun r => decide (key r = k))).map f).sum)).sum
        = ((rows.filter (fun r => p (key r))).map f).sum := by
  intro rows
  induction rows with
  | nil =>
    intro keys _ _ _
    simp [List.map_const']
  | cons r rs ih =>
    intro keys hnd hmem hkeys
    have hcons : ∀ k : κ,
        (((r :: rs).filter (fun x => decide (key x = k))).map f).sum
          = (if key r = k then f r else 0)
            + ((rs.filter (fun x => decide (key x = k))).map f).sum := by
      intro k
      by_cases h : key r = k
      · rw [List.filter_cons_of_pos (by simpa using h), List.map_cons, List.sum_cons,
          if_pos h]
      · rw [List.filter_cons_of_neg (by simpa using h), if_neg h, zero_add]
    have step1 :
        (keys.map (fun k => (((r :: rs).filter (fun x => decide (key x = k))).map f).sum)).sum
          = (keys.map (fun k => (if key r = k then f r else 0)
              + ((rs.filter (fun x => decide (key x = k))).map f).sum)).sum := by
      congr 1
      exact List.map_congr_left (fun k _ => hcons k)
    rw [step1, list_sum_map_add]
    have ihs := ih keys hnd (fun x hx hpx => hmem x (List.mem_cons_of_mem r hx) hpx) hkeys
    by_cases hp : p (key r) = true
    · have hfc : (r :: rs).filter (fun x => p (key x))
          = r :: rs.filter (fun x => p (key x)) := List.filter_cons_of_pos hp
      rw [hfc, List.map_cons, List.sum_cons,
        list_sum_ite_mem (key r) (f r) keys hnd (hmem r (List.mem_cons_self r rs) hp), ihs]
    · have hfc : (r :: rs).filter (fun x => p (key x))
          = rs.filter (fun x => p (key x)) := List.filter_cons_of_neg (by simpa using hp)
      rw [hfc, list_sum_ite_not_mem (key r) (f r) keys (fun hin => hp (hkeys _ hin)), ihs,
        zero_add]

lemma filter_split (f : R → ℚ) (p q : R → Bool) :
    ∀ l : List R,
      ((l.filter p).map f).sum
        = ((l.filter (fun x => p x && q x)).map f).sum
          + ((l.filter (fun x => p x && !q x)).map f).sum := by
  intro l
  induction l with
  | nil => simp
  | cons a t ih =>
    by_cases hpa : p a = true
    · by_cases hqa : q a = true
      · rw [List.filter_cons_of_pos hpa, List.filter_cons_of_pos (by simp [hpa, hqa]),
          List.filter_cons_of_neg (by simp [hpa, hqa]), List.map_cons, List.sum_cons,
          List.map_cons, List.sum_cons, ih]
        ring
      · rw [List.filter_cons_of_pos hpa, List.filter_cons_of_neg (by simp [hpa, hqa]),
          List.filter_cons_of_pos (by simp [hpa, hqa]), List.map_cons, List.sum_cons,
          List.map_cons, List.sum_cons, ih]
        ring
    · rw [List.filter_cons_of_neg (by simpa using hpa),
        List.filter_cons_of_neg (by simp [hpa]), List.filter_cons_of_neg (by simp [hpa]), ih]

end AggHelpers

/-- One row of the long option-chain dataframe consumed by the
aggregator and the profile simulator: intrinsic contract attributes plus
the vendor-supplied gamma. -/
structure OptionRow where
  expiration : PyDate
  strike : ℚ
  optionType : String
  impliedVolatility : ℚ
  openInterest : ℚ
  gamma : ℚ
deriving DecidableEq

/-- The grouping key of the first groupby of
calculate_spot_total_gamma_call_puts (line 88): expiration, option type
and strike. -/
def key3 (r : OptionRow) : PyDate × String × ℚ :=
  (r.expiration, r.optionType, r.strike)

/-- The in-place sign flip of lines 79-81: put rows are negated after
the unsigned exposure is computed, other rows keep their value. -/
def signedCol (f : OptionRow → ℚ) (r : OptionRow) : ℚ :=
  if r.optionType = "put" then -(f r) else f r

/-- Unsigned notional exposure of one row (lines 75-77). -/
def gammaExposureRow (spot : ℚ) (r : OptionRow) : ℚ :=
  r.gamma * r.openInterest * 100 * spot ^ 2 * 0.01

/-- Unsigned per-share exposure of one row (lines 71-73). -/
def gammaExposureSharesRow (spot : ℚ) (r : OptionRow) : ℚ :=
  r.gamma * r.openInterest * 100 * spot

/-- Unsigned theoretical exposure of one row (lines 67-69). -/
def gammaExposureTheoRow (r : OptionRow) : ℚ :=
  r.gamma * r.openInterest

/-- The distinct strikes of the chain, the index of the output table. -/
def strikeKeys (rows : List OptionRow) : List ℚ :=
  (rows.map (fun r => r.strike)).dedup

/-- Embedding of the double grouping of lines 86-129: group by
(expiration, optionType, strike), sum the signed exposure, divide each
group by 10^9, then regroup by strike and sum; the value of the total
column at one strike. -/
def totalAgg (rows : List OptionRow) (f : OptionRow → ℚ) (s : ℚ) : ℚ :=
  ((((rows.map key3).dedup).filter (fun k => decide (k.2.2 = s))).map
    (fun k => ((rows.filter (fun r => decide (key3 r = k))).map (signedCol f)).sum / 10 ^ 9)).sum

/-- Embedding of lines 133-140: restrict to one option type, group by
strike, sum and divide by 10^9; the value of a call-only or put-only
column at one strike. -/
def typeAgg (rows : List OptionRow) (f : OptionRow → ℚ) (t : String) (s : ℚ) : ℚ :=
  (((rows.filter (fun r => decide (r.optionType = t))).filter
      (fun r => decide (r.strike = s))).map (signedCol f)).sum / 10 ^ 9

/-- The call-only and put-only columns after the outer join of the
concat at lines 144-154: a strike absent from the one-sided subtable
aligns to a missing value, modelled as none. -/
def typeAggOpt (rows : List OptionRow) (f : OptionRow → ℚ) (t : String) (s : ℚ) : Option ℚ :=
  if (rows.filter (fun r => decide (r.optionType = t))).filter
      (fun r => decide (r.strike = s)) = [] then none
  else some (typeAgg rows f t s)

/-- One row of the output table of calculate_spot_total_gamma_call_puts:
nine columns, three unit systems times total, call and put; the call and
put columns may be missing after the outer join. -/
structure GammaStrikeRow where
  strike : ℚ
  totalGamma : ℚ
  totalGammaCall : Option ℚ
  totalGammaPut : Option ℚ
  totalGammaShare : ℚ
  totalGammaShareCall : Option ℚ
  totalGammaSharePut : Option ℚ
  totalGammaTheo : ℚ
  totalGammaTheoCall : Option ℚ
  totalGammaTheoPut : Option ℚ
deriving DecidableEq

/-- The output table of lines 144-168: one row per strike. -/
def gammaStrikes (rows : List OptionRow) (spot : ℚ) : List GammaStrikeRow :=
  (strikeKeys rows).map (fun s =>
    { strike := s
      totalGamma := totalAgg rows (gammaExposureRow spot) s
      totalGammaCall := typeAggOpt rows (gammaExposureRow spot) "call" s
      totalGammaPut := typeAggOpt rows (gammaExposureRow spot) "put" s
      totalGammaShare := totalAgg rows (gammaExposureSharesRow spot) s
      totalGammaShareCall := typeAggOpt rows (gammaExposureSharesRow spot) "call" s
      totalGammaSharePut := typeAggOpt rows (gammaExposureSharesRow spot) "put" s
      totalGammaTheo := totalAgg rows gammaExposureTheoRow s
      totalGammaTheoCall := typeAggOpt rows gammaExposureTheoRow "call" s
      totalGammaTheoPut := typeAggOpt rows gammaExposureTheoRow "put" s })

lemma totalAgg_eq_filter_sum (rows : List OptionRow) (f : OptionRow → ℚ) (s : ℚ) :
    totalAgg rows f s
      = ((rows.filter (fun r => decide (r.strike = s))).map (signedCol f)).sum / 10 ^ 9 := by
  rw [totalAgg, list_sum_map_div]
  rw [groupsum_partition key3 (signedCol f) (fun k => decide (k.2.2 = s)) rows
    (((rows.map key3).dedup).filter (fun k => decide (k.2.2 = s)))
    ((List.nodup_dedup (rows.map key3)).filter _)
    (fun r hr hp => List.mem_filter.mpr ⟨List.mem_dedup.mpr (List.mem_map_of_mem key3 hr), hp⟩)
    (fun k hk => (List.mem_filter.mp hk).2)]
  rfl

lemma typeAgg_eq (rows : List OptionRow) (f : OptionRow → ℚ) (t : String) (s : ℚ) :
    typeAgg rows f t s
      = ((rows.filter (fun r => decide (r.strike = s) && decide (r.optionType = t))).map
          (signedCol f)).sum / 10 ^ 9 := by
  rw [typeAgg, List.filter_filter]

lemma totalAgg_call_put (rows : List OptionRow) (f : OptionRow → ℚ) (s : ℚ)
    (h : ∀ r ∈ rows, r.optionType = "call" ∨ r.optionType = "put") :
    totalAgg rows f s = typeAgg rows f "call" s + typeAgg rows f "put" s := by
  rw [totalAgg_eq_filter_sum, typeAgg_eq, typeAgg_eq,
    filter_split (signedCol f) (fun r => decide (r.strike = s))
      (fun r => decide (r.optionType = "call")) rows]
  have hcg : rows.filter
        (fun x => decide (x.strike = s) && !decide (x.optionType = "call"))
      = rows.filter (fun x => decide (x.strike = s) && decide (x.optionType = "put")) := by
    apply List.filter_congr
    intro x hx
    rcases h x hx with hc | hp
    · simp [hc]
    · simp [hp]
  rw [hcg, add_div]

/-- C5 amended: for every strike that carries at least one call row and
at least one put row, the total column of the aggregated table equals
the call-only column plus the put-only column, exactly, in each of the
three unit systems; at a strike missing one side, that side of the
outer join is a missing value instead. -/
theorem per_strike_total_eq_call_add_put (rows : List OptionRow) (spot s : ℚ)
    (h : ∀ r ∈ rows, r.optionType = "call" ∨ r.optionType = "put")
    (hc : (rows.filter (fun r => decide (r.optionType = "call"))).filter
        (fun r => decide (r.strike = s)) ≠ [])
    (hp : (rows.filter (fun r => decide (r.optionType = "put"))).filter
        (fun r => decide (r.strike = s)) ≠ []) :
    typeAggOpt rows (gammaExposureRow spot) "call" s
        = some (typeAgg rows (gammaExposureRow spot) "call" s) ∧
    typeAggOpt rows (gammaExposureRow spot) "put" s
        = some (typeAgg rows (gammaExposureRow spot) "put" s) ∧
    totalAgg rows (gammaExposureRow spot) s
      = typeAgg rows (gammaExposureRow spot) "call" s
        + typeAgg rows (gammaExposureRow spot) "put" s ∧
    totalAgg rows (gammaExposureSharesRow spot) s
      = typeAgg rows (gammaExposureSharesRow spot) "call" s
        + typeAgg rows (gammaExposureSharesRow spot) "put" s ∧
    totalAgg rows gammaExposureTheoRow s
      = typeAgg rows gammaExposureTheoRow "call" s
        + typeAgg rows gammaExposureTheoRow "put" s := by
  refine ⟨?_, ?_, ?_, ?_, ?_⟩
  · rw [typeAggOpt, if_neg hc]
  · rw [typeAggOpt, if_neg hp]
  · exact totalAgg_call_put rows (gammaExposureRow spot) s h
  · exact totalAgg_call_put rows (gammaExposureSharesRow spot) s h
  · exact totalAgg_call_put rows gammaExposureTheoRow s h

/-- Closed witness for per_strike_total_eq_call_add_put on a two-row
chain with one call and one put at the same strike. -/
theorem per_strike_total_eq_call_add_put_witness :
    typeAggOpt [⟨⟨0, 1⟩, 100, "call", 1/5, 10, 1⟩, ⟨⟨0, 1⟩, 100, "put", 1/5, 5, 2⟩]
        (gammaExposureRow 1) "call" 100
      = some (typeAgg [⟨⟨0, 1⟩, 100, "call", 1/5, 10, 1⟩, ⟨⟨0, 1⟩, 100, "put", 1/5, 5, 2⟩]
          (gammaExposureRow 1) "call" 100) ∧
    typeAggOpt [⟨⟨0, 1⟩, 100, "call", 1/5, 10, 1⟩, ⟨⟨0, 1⟩, 100, "put", 1/5, 5, 2⟩]
        (gammaExposureRow 1) "put" 100
      = some (typeAgg [⟨⟨0, 1⟩, 100, "call", 1/5, 10, 1⟩, ⟨⟨0, 1⟩, 100, "put", 1/5, 5, 2⟩]
          (gammaExposureRow 1) "put" 100) ∧
    totalAgg [⟨⟨0, 1⟩, 100, "call", 1/5, 10, 1⟩, ⟨⟨0, 1⟩, 100, "put", 1/5, 5, 2⟩]
        (gammaExposureRow 1) 100
      = typeAgg [⟨⟨0, 1⟩, 100, "call", 1/5, 10, 1⟩, ⟨⟨0, 1⟩, 100, "put", 1/5, 5, 2⟩]
          (gammaExposureRow 1) "call" 100
        + typeAgg [⟨⟨0, 1⟩, 100, "call", 1/5, 10, 1⟩, ⟨⟨0, 1⟩, 100, "put", 1/5, 5, 2⟩]
          (gammaExposureRow 1) "put" 100 ∧
    totalAgg [⟨⟨0, 1⟩, 100, "call", 1/5, 10, 1⟩, ⟨⟨0, 1⟩, 100, "put", 1/5, 5, 2⟩]
        (gammaExposureSharesRow 1) 100
      = typeAgg [⟨⟨0, 1⟩, 100, "call", 1/5, 10, 1⟩, ⟨⟨0, 1⟩, 100, "put", 1/5, 5, 2⟩]
          (gammaExposureSharesRow 1) "call" 100
        + typeAgg [⟨⟨0, 1⟩, 100, "call", 1/5, 10, 1⟩, ⟨⟨0, 1⟩, 100, "put", 1/5, 5, 2⟩]
          (gammaExposureSharesRow 1) "put" 100 ∧
    totalAgg [⟨⟨0, 1⟩, 100, "call", 1/5, 10, 1⟩, ⟨⟨0, 1⟩, 100, "put", 1/5, 5, 2⟩]
        gammaExposureTheoRow 100
      = typeAgg [⟨⟨0, 1⟩, 100, "call", 1/5, 10, 1⟩, ⟨⟨0, 1⟩, 100, "put", 1/5, 5, 2⟩]
          gammaExposureTheoRow "call" 100
        + typeAgg [⟨⟨0, 1⟩, 100, "call", 1/5, 10, 1⟩, ⟨⟨0, 1⟩, 100, "put", 1/5, 5, 2⟩]
          gammaExposureTheoRow "put" 100 :=
  per_strike_total_eq_call_add_put
    [⟨⟨0, 1⟩, 100, "call", 1/5, 10, 1⟩, ⟨⟨0, 1⟩, 100, "put", 1/5, 5, 2⟩] 1 100
    (by decide) (by decide) (by decide)

/-- C5 counterexample: on a chain holding a single call at strike 100
the strike appears in the table, the total column is a nonzero number,
but the put-only column is a missing value after the outer join, so the
total cannot equal call plus put there. -/
theorem per_strike_put_column_missing_cex :
    (100:ℚ) ∈ strikeKeys [⟨⟨0, 1⟩, 100, "call", 1/5, 10, 1⟩] ∧
    typeAggOpt [⟨⟨0, 1⟩, 100, "call", 1/5, 10, 1⟩] (gammaExposureRow 1) "put" 100 = none ∧
    totalAgg [⟨⟨0, 1⟩, 100, "call", 1/5, 10, 1⟩] (gammaExposureRow 1) 100 ≠ 0 := by
  refine ⟨by decide, by decide, ?_⟩
  rw [totalAgg_eq_filter_sum]
  simp [signedCol, gammaExposureRow]
  norm_num

/-- The option-chain dataframe as a mutable object: the contract rows
plus the derived columns the two engine functions assign in place.
A column holds one entry per row, in row order; none means the column
has not been created. -/
structure ChainFrame where
  rows : List OptionRow
  gammaExposureCol : Option (List ℚ)
  gammaExposureSharesCol : Option (List ℚ)
  gammaExposureTheoCol : Option (List ℚ)
  daysUntilExpiryCol : Option (List ℚ)
  isThirdFridayCol : Option (List Bool)
deriving DecidableEq

/-- Embedding of calculate_spot_total_gamma_call_puts (lines 61-168)
with its dataframe mutation made explicit: the function writes the three
signed exposure columns into the caller frame (lines 67-81) and returns
the per-strike table; the post-call state of the caller frame is the
first component. -/
def calculate_spot_total_gamma_call_puts (df : ChainFrame) (spot : ℚ) :
    ChainFrame × List GammaStrikeRow :=
  let df1 : ChainFrame :=
    { df with
      gammaExposureTheoCol := some (df.rows.map (signedCol gammaExposureTheoRow))
      gammaExposureSharesCol := some (df.rows.map (signedCol (gammaExposureSharesRow spot)))
      gammaExposureCol := some (df.rows.map (signedCol (gammaExposureRow spot))) }
  (df1, gammaStrikes df.rows spot)

/-- Line 187: the nearest expiration of the chain, none on an empty
chain. -/
def min_expiration (rows : List OptionRow) : Option ℤ :=
  (rows.map (fun r => r.expiration.absDay)).min?

/-- Lines 189-191: the nearest third-Friday expiration, none when no row
expires on a third Friday. -/
def min_monthly_expiration (rows : List OptionRow) : Option ℤ :=
  ((rows.filter (fun r => is_third_friday r.expiration)).map
    (fun r => r.expiration.absDay)).min?

/-- Lines 202-203: the per-row gamma exposure column recomputed at one
hypothetical spot level from the intrinsic row attributes and the
days-until-expiry column, rates and dividend yields fixed at zero. -/
noncomputable def level_exposures (rows : List OptionRow) (days : List ℚ) (level : ℚ) :
    List ℝ :=
  (rows.zip days).map (fun rd =>
    calc_gamma_exposure (level : ℝ) (rd.1.strike : ℝ) (rd.1.impliedVolatility : ℝ)
      (rd.2 : ℝ) 0 0 rd.1.optionType (rd.1.openInterest : ℝ))

/-- Sum of a column over the rows selected by a predicate. -/
noncomputable def sum_col_where (rows : List OptionRow) (col : List ℝ)
    (p : OptionRow → Bool) : ℝ :=
  (((rows.zip col).filter (fun rc => p rc.1)).map (fun rc => rc.2)).sum

/-- Lines 205-219 for one level: net gamma is the call sum minus the put
sum of the exposure column over the rows kept by the exclusion
predicate. -/
noncomputable def net_gamma (rows : List OptionRow) (col : List ℝ)
    (keep : OptionRow → Bool) : ℝ :=
  sum_col_where rows col (fun r => keep r && decide (r.optionType = "call"))
    - sum_col_where rows col (fun r => keep r && decide (r.optionType = "put"))

/-- Embedding of the sweep loop of lines 199-221: the state of the copy
frame (its gamma exposure column, overwritten on every iteration) is
threaded explicitly; the three accumulated lists are the first
component. -/
noncomputable def profile_loop (rows : List OptionRow) (days : List ℚ)
    (next_exp next_mon : Option ℤ) (levels : List ℚ) (st : Option (List ℝ)) :
    (List ℝ × List ℝ × List ℝ) × Option (List ℝ) :=
  levels.foldl
    (fun acc level =>
      let col := level_exposures rows days level
      ((acc.1.1 ++ [net_gamma rows col (fun _ => true)],
        acc.1.2.1 ++ [net_gamma rows col
          (fun r => decide (some r.expiration.absDay ≠ next_exp))],
        acc.1.2.2 ++ [net_gamma rows col
          (fun r => decide (some r.expiration.absDay ≠ next_mon))]),
       some col))
    (([], [], []), st)

/-- Embedding of calculate_gamma_profile (lines 171-248) with its
dataframe mutation made explicit: the function writes the days-until-
expiry and third-Friday columns into the caller frame, sweeps a copy of
that frame over the 60 spot levels, divides the three accumulated series
by 10^9 and solves for the zero-gamma level; the post-call state of the
caller frame is the first component. -/
noncomputable def calculate_gamma_profile (df : ChainFrame) (spot : ℚ)
    (last_trade_date : ℤ) (pct_from pct_to : ℚ) :
    ChainFrame × (List ℝ × List ℝ × List ℝ) × Except String ℝ :=
  let levels := profile_levels spot pct_from pct_to
  let days := df.rows.map (fun r => days_until_expiry last_trade_date r.expiration.absDay)
  let df1 : ChainFrame :=
    { df with
      daysUntilExpiryCol := some days
      isThirdFridayCol := some (df.rows.map (fun r => is_third_friday r.expiration)) }
  let res := profile_loop df.rows days (min_expiration df.rows)
    (min_monthly_expiration df.rows) levels
    (df1.gammaExposureCol.map (fun c => c.map (fun x => (x : ℝ))))
  let total_gamma := res.1.1.map (fun x => x / 10 ^ 9)
  let total_gamma_ex_next := res.1.2.1.map (fun x => x / 10 ^ 9)
  let total_gamma_ex_fri := res.1.2.2.map (fun x => x / 10 ^ 9)
  (df1, (total_gamma, total_gamma_ex_next, total_gamma_ex_fri),
    zero_gamma_calc (levels.map (fun q => (q : ℝ))) total_gamma)

/-- C9 amended: both engine functions extend the caller frame with
derived columns but never change the contract rows themselves, and the
sweep totals do not depend on the incoming state of the per-level gamma
column, so no per-level state leaks into the next level. -/
theorem no_intrinsic_mutation (df : ChainFrame) (spot : ℚ) (last_trade : ℤ)
    (pct_from pct_to : ℚ) (rows : List OptionRow) (days : List ℚ)
    (nxe nxm : Option ℤ) (levels : List ℚ) (st1 st2 : Option (List ℝ)) :
    (calculate_spot_total_gamma_call_puts df spot).1.rows = df.rows ∧
    (calculate_gamma_profile df spot last_trade pct_from pct_to).1.rows = df.rows ∧
    (profile_loop rows days nxe nxm levels st1).1
      = (profile_loop rows days nxe nxm levels st2).1 := by
  refine ⟨rfl, rfl, ?_⟩
  cases levels with
  | nil => rfl
  | cons l ls => rfl

/-- C9 counterexample: the aggregator returns a caller frame state
different from the one it was handed, because the three signed exposure
columns were assigned in place into the input dataframe. -/
theorem aggregator_mutates_frame_cex :
    (calculate_spot_total_gamma_call_puts
        ⟨[⟨⟨0, 1⟩, 100, "call", 5, 10, 1⟩], none, none, none, none, none⟩ 1).1
      ≠ ⟨[⟨⟨0, 1⟩, 100, "call", 5, 10, 1⟩], none, none, none, none, none⟩ := by
  decide

/-- C8 counterexample: with the invalid parameter pair pctFrom = 1.2 and
pctTo = 0.8 the engine does not fail fast: it builds the full 60-point
(descending) sweep grid, and the aggregator likewise accepts a negative
strike and negative open interest and produces an output row for them. -/
theorem no_fail_fast_cex :
    (profile_levels 100 (6/5) (4/5)).length = 60 ∧
    (profile_levels 100 (6/5) (4/5)).getD 0 0 = 120 ∧
    (profile_levels 100 (6/5) (4/5)).getD 59 0 = 80 ∧
    (gammaStrikes [⟨⟨0, 1⟩, -50, "call", 1/5, -10, 1⟩] 1).length = 1 := by
  refine ⟨?_, ?_, ?_, ?_⟩
  · rw [profile_levels, linspace_length]
  · rw [profile_levels_getD _ _ _ 0 (by norm_num)]
    norm_num
  · rw [profile_levels_getD _ _ _ 59 (by norm_num)]
    norm_num
  · rw [gammaStrikes, List.length_map]
    decide
